import Mathlib

/-!
Verification of the crash-game round engine (server in `server.js`, ledger in
`database.js`).  JS numbers are modelled as exact rationals; host-environment
library functions (CryptoJS.SHA256, CryptoJS.HmacSHA256, Math.pow(Math.E, ·))
are abstracted as function parameters since they are not code of this
repository.  Command handlers and the tick callback run on the single
sequential per-room timeline of the node event loop, modelled by the `step`
function over explicit configurations and a `run` function over timed command
traces.
-/

namespace CrashStreet

/-- A bet as stored in `GameRoom.bets`:
`{ amount, cashedOut: false, winAmount: 0 }`. -/
structure Bet where
  amount : ℚ
  cashedOut : Bool
  winAmount : ℚ
deriving DecidableEq, Repr

/-- `Map.get` on an association list (JS `Map` keyed by user id). -/
def mapGet {α : Type} : List (ℕ × α) → ℕ → Option α
  | [], _ => none
  | (k, v) :: rest, u => if k = u then some v else mapGet rest u

/-- `Map.set` on an association list: replaces the value of an existing key in
place, appends a fresh key at the end (JS `Map` insertion-order semantics). -/
def mapSet {α : Type} : List (ℕ × α) → ℕ → α → List (ℕ × α)
  | [], u, v => [(u, v)]
  | (k, w) :: rest, u, v =>
      if k = u then (u, v) :: rest else (k, w) :: mapSet rest u v

/-- The external balance store of `database.js`: the `users.balance` column,
plus an availability flag modelling the external SQLite store being
reachable at all (the spec's "external store unavailable" failure mode). -/
structure Ledger where
  balances : List (ℕ × ℚ)
  avail : Bool
deriving DecidableEq, Repr

/-- Reasons `updateUserBalance` rejects its promise. -/
inductive LedgerErr
  | unavailable
  | userNotFound
  | insufficientFunds
deriving DecidableEq, Repr

/-- `updateUserBalance(userId, amount, type, externalId)` from `database.js`:
inside one transaction, read the balance, reject if the user is missing or the
new balance would be negative, otherwise write the new balance (and append an
audit row, not modelled).  A rejected promise rolls the transaction back, so
failure leaves the ledger unchanged. -/
def updateUserBalance (L : Ledger) (userId : ℕ) (amount : ℚ) :
    Except LedgerErr (Ledger × ℚ) :=
  if L.avail = false then .error .unavailable
  else
    match mapGet L.balances userId with
    | none => .error .userNotFound
    | some bal =>
        let newBalance := bal + amount
        if newBalance < 0 then .error .insufficientFunds
        else .ok ({ L with balances := mapSet L.balances userId newBalance },
                  newBalance)

/-- Value of one hexadecimal digit, as accepted by JS `parseInt(·, 16)`. -/
def hexDigitVal (c : Char) : Option ℕ :=
  if c.toNat ≥ 48 ∧ c.toNat ≤ 57 then some (c.toNat - 48)
  else if c.toNat ≥ 97 ∧ c.toNat ≤ 102 then some (c.toNat - 97 + 10)
  else if c.toNat ≥ 65 ∧ c.toNat ≤ 70 then some (c.toNat - 65 + 10)
  else none

/-- Accumulating hex parse; stops at the first non-hex character, as JS
`parseInt(s, 16)` does. -/
def parseHexList : List Char → ℕ → ℕ
  | [], acc => acc
  | c :: cs, acc =>
      match hexDigitVal c with
      | some d => parseHexList cs (16 * acc + d)
      | none => acc

/-- `parseInt(s.substring(0, n), 16)`: the hex prefixes used by the
crash-point derivation (13 hex digits = 52 bits, exactly representable in a JS
number; digests are ASCII so `substring` counts characters). -/
def parseHexNat (s : String) (n : ℕ) : ℕ := parseHexList (s.toList.take n) 0

/-- `GameRoom.getCrashPoint`, as a function of the hex digest of
`HmacSHA256(serverSeed ++ ":" ++ nonce, serverSeed)`:
instant crash at 1.00 when the first 13 hex digits are divisible by 13,
otherwise `max(1.00, floor(100 * 0.99 / (1 - h / 2^32)) / 100)` with `h` the
first 8 hex digits. -/
def getCrashPoint (hash : String) : ℚ :=
  if parseHexNat hash 13 % 13 = 0 then 1
  else
    let h : ℕ := parseHexNat hash 8
    let e : ℚ := 2 ^ 32
    let result : ℚ := ((⌊(100 * (99 / 100 : ℚ)) / (1 - (h : ℚ) / e)⌋ : ℤ) : ℚ) / 100
    max 1 result

/-- Modelled from the spec (§4.1 Fairness Generator), for comparison with the
source's `getCrashPoint`: interpret the first 13 hex characters of the digest
as an integer; if divisible by 13 the crash point is exactly 1.00; otherwise
with `h` the 32-bit unsigned integer given by the first 8 hex characters, the
crash point is `max(1.00, floor(100 * 0.99 / (1 - h/2^32)) / 100)`. -/
def crashPointFromSpec (digest : String) : ℚ :=
  if parseHexNat digest 13 % 13 = 0 then 1
  else
    let h : ℚ := (parseHexNat digest 8 : ℚ)
    max 1 (((⌊(100 * (99 / 100 : ℚ)) / (1 - h / 2 ^ 32)⌋ : ℤ) : ℚ) / 100)

/-- `parseFloat(x.toFixed(2))` on a positive JS number: round to the nearest
multiple of 1/100, ties away from zero. -/
def toFixed2 (x : ℚ) : ℚ := ((round (100 * x) : ℤ) : ℚ) / 100

/-- The mutable state of one `GameRoom` instance. -/
structure GameRoom where
  ticker : String
  lambda : ℚ
  roomName : String
  isRunning : Bool
  multiplier : ℚ
  startTime : ℤ
  crashPoint : ℚ
  bets : List (ℕ × Bet)
  serverSeed : String
  serverSeedHash : String
  nonce : ℕ
deriving DecidableEq, Repr

/-- Error strings emitted on the `bet_error` channel. -/
inductive BetErr
  | gameStarted
  | invalidAmount
  | ledger (e : LedgerErr)
deriving DecidableEq, Repr

/-- Error strings emitted on the `error` channel by the cash_out handler:
`notRunning` is 'Game not running', `tooLate` is 'Crashed!'. -/
inductive CashErr
  | notRunning
  | noBet
  | alreadyCashedOut
  | tooLate
deriving DecidableEq, Repr

/-- Socket events emitted by the engine. -/
inductive Event
  | gameStart (ticker : String) (nonce : ℕ) (hash : String) (startTime : ℤ)
  | tickBroadcast (multiplier : ℚ)
  | crash (multiplier : ℚ) (serverSeed : String)
  | betSuccess (user : ℕ) (amount : ℚ)
  | betError (user : ℕ) (e : BetErr)
  | cashOutSuccess (user : ℕ) (multiplier : ℚ) (winAmount : ℚ)
  | cashOutError (user : ℕ) (e : CashErr)
  | balanceUpdate (user : ℕ) (balance : ℚ)
deriving DecidableEq, Repr

/-- Whether an event is a `game_start` broadcast. -/
def isStart : Event → Bool
  | .gameStart _ _ _ _ => true
  | _ => false

/-- `rotateSeed()`: draw a fresh 64-hex-char seed (the random draw is an input
here), publish its SHA-256 commitment, and advance the nonce.  `sha` stands
for `CryptoJS.SHA256(·).toString()`. -/
def rotateSeed (sha : String → String) (newSeed : String) (g : GameRoom) :
    GameRoom :=
  { g with serverSeed := newSeed, serverSeedHash := sha newSeed,
           nonce := g.nonce + 1 }

/-- `startGame()`: no-op while a round is already marked running; otherwise
rotate the seed, fix the round's crash point from the HMAC digest of
`"<serverSeed>:<nonce>"` keyed with `serverSeed`, reset the multiplier, open a
6-second betting window, clear the bets, and broadcast `game_start`.
`hmac msg key` stands for `CryptoJS.HmacSHA256(msg, key).toString()`. -/
def startGame (sha : String → String) (hmac : String → String → String)
    (newSeed : String) (now : ℤ) (g : GameRoom) : GameRoom × List Event :=
  if g.isRunning then (g, [])
  else
    let g1 := rotateSeed sha newSeed g
    let cp := getCrashPoint
      (hmac (g1.serverSeed ++ ":" ++ toString g1.nonce) g1.serverSeed)
    let g2 := { g1 with crashPoint := cp, multiplier := 1, isRunning := true,
                        startTime := now + 6000, bets := [] }
    (g2, [Event.gameStart g2.ticker g2.nonce g2.serverSeedHash g2.startTime])

/-- `crashGame()`: mark the round over and broadcast the crash point together
with the now-disclosable server seed. -/
def crashGame (g : GameRoom) : GameRoom × List Event :=
  ({ g with isRunning := false }, [Event.crash g.crashPoint g.serverSeed])

/-- One firing of the 50 ms interval inside `runGameLoop()`: `t` is the
elapsed time in seconds since the loop started, `expE` stands for
`Math.pow(Math.E, ·)`.  The sampled multiplier is
`Math.max(1.00, parseFloat(Math.pow(Math.E, k * t * 2.5).toFixed(2)))` with
`k = 0.065 * (2.0 / lambda)`; a sample reaching the crash point triggers
`crashGame()` instead of a tick broadcast. -/
def tick (expE : ℚ → ℚ) (t : ℚ) (g : GameRoom) : GameRoom × List Event :=
  let k : ℚ := (65 / 1000) * (2 / g.lambda)
  let M : ℚ := expE (k * t * (5 / 2))
  let g1 := { g with multiplier := max 1 (toFixed2 M) }
  if g1.crashPoint ≤ g1.multiplier then crashGame g1
  else (g1, [Event.tickBroadcast g1.multiplier])

/-- The `place_bet` socket handler: rejected when the multiplier has left 1.00
(implicit "game already started" check), then when the amount is non-positive;
otherwise the ledger is debited and — only if the debit succeeded — the bet is
recorded and acknowledged with the fresh balance. -/
def place_bet (L : Ledger) (g : GameRoom) (user : ℕ) (amount : ℚ) :
    Ledger × GameRoom × List Event :=
  if 1 < g.multiplier then (L, g, [Event.betError user .gameStarted])
  else if amount ≤ 0 then (L, g, [Event.betError user .invalidAmount])
  else
    match updateUserBalance L user (-amount) with
    | .error e => (L, g, [Event.betError user (.ledger e)])
    | .ok (L2, _) =>
        let g2 := { g with bets := mapSet g.bets user ⟨amount, false, 0⟩ }
        (L2, g2, [Event.betSuccess user amount,
                  Event.balanceUpdate user (match mapGet L2.balances user with
                                            | some b => b
                                            | none => 0)])

/-- The in-place mutation `bet.cashedOut = true; bet.winAmount = winAmount`
performed by the cash_out handler, with
`winAmount = Math.floor(bet.amount * currentMult)`. -/
def cashedBet (bet : Bet) (currentMult : ℚ) : Bet :=
  { bet with cashedOut := true,
             winAmount := ((⌊bet.amount * currentMult⌋ : ℤ) : ℚ) }

/-- The `cash_out` socket handler: requires `isRunning`, an existing
un-cashed bet, and the multiplier not to exceed the crash point; then the bet
is marked cashed out with `winAmount = Math.floor(bet.amount * multiplier)`
**before** the ledger credit is attempted; a failed credit is only logged
(`console.error`), emitting nothing. -/
def cash_out (L : Ledger) (g : GameRoom) (user : ℕ) :
    Ledger × GameRoom × List Event :=
  if g.isRunning = false then (L, g, [Event.cashOutError user .notRunning])
  else
    match mapGet g.bets user with
    | none => (L, g, [Event.cashOutError user .noBet])
    | some bet =>
        if bet.cashedOut then (L, g, [Event.cashOutError user .alreadyCashedOut])
        else
          let currentMult := g.multiplier
          if g.crashPoint < currentMult then
            (L, g, [Event.cashOutError user .tooLate])
          else
            let winAmount : ℚ := ((⌊bet.amount * currentMult⌋ : ℤ) : ℚ)
            let g2 := { g with bets := mapSet g.bets user (cashedBet bet currentMult) }
            match updateUserBalance L user winAmount with
            | .error _ => (L, g2, [])
            | .ok (L2, newBal) =>
                (L2, g2, [Event.cashOutSuccess user currentMult winAmount,
                          Event.balanceUpdate user newBal])

/-- The `GameRoom` constructor body up to (but not including) the
`startDateLoop()` call: field initialisation followed by the constructor's own
`rotateSeed()`. -/
def initRoom (sha : String → String) (seed0 ticker roomName : String)
    (lam : ℚ) : GameRoom :=
  rotateSeed sha seed0
    { ticker := ticker, lambda := lam, roomName := roomName,
      isRunning := false, multiplier := 1, startTime := 0, crashPoint := 0,
      bets := [], serverSeed := "", serverSeedHash := "", nonce := 0 }

/-- The host-environment functions the engine calls: SHA-256, HMAC-SHA256
(message then key) and the real exponential, all external libraries. -/
structure Ext where
  sha : String → String
  hmac : String → String → String
  expE : ℚ → ℚ

/-- A room together with the external ledger it transacts against. -/
structure Config where
  ledger : Ledger
  room : GameRoom
deriving DecidableEq, Repr

/-- The work items the node event loop can deliver to one room: a scheduled
`startGame` (carrying the fresh random seed), an interval firing of the game
loop (carrying the elapsed seconds), or a client command. -/
inductive Cmd
  | startG (newSeed : String)
  | tickFire (t : ℚ)
  | placeBet (user : ℕ) (amount : ℚ)
  | cashOut (user : ℕ)
deriving DecidableEq, Repr

/-- Sequential processing of one work item at wall-clock time `now`
(milliseconds); the client-command handlers never read the clock. -/
def step (E : Ext) (c : Config) (now : ℤ) : Cmd → Config × List Event
  | .startG seed =>
      let r := startGame E.sha E.hmac seed now c.room
      (⟨c.ledger, r.1⟩, r.2)
  | .tickFire t =>
      let r := tick E.expE t c.room
      (⟨c.ledger, r.1⟩, r.2)
  | .placeBet u a =>
      let r := place_bet c.ledger c.room u a
      (⟨r.1, r.2.1⟩, r.2.2)
  | .cashOut u =>
      let r := cash_out c.ledger c.room u
      (⟨r.1, r.2.1⟩, r.2.2)

/-- Process a list of timed work items in order, collecting all broadcasts. -/
def run (E : Ext) : Config → List (ℤ × Cmd) → Config × List Event
  | c, [] => (c, [])
  | c, tc :: rest =>
      let r1 := step E c tc.1 tc.2
      let r2 := run E r1.1 rest
      (r2.1, r1.2 ++ r2.2)

/-- Configurations reachable from process start (constructed room, arbitrary
external ledger) by sequential processing of work items. -/
inductive Reachable (E : Ext) : Config → Prop
  | init (L0 : Ledger) (seed0 ticker roomName : String) (lam : ℚ) :
      Reachable E ⟨L0, initRoom E.sha seed0 ticker roomName lam⟩
  | next (c : Config) (now : ℤ) (cmd : Cmd) :
      Reachable E c → Reachable E (step E c now cmd).1

/-- A concrete host environment for closed executions: the commitment hash of
`s` is `"H" ++ s`, every HMAC digest is `"80000000"` (giving crash point
1.98), and the exponential constantly returns 3. -/
def extA : Ext := ⟨fun s => "H" ++ s, fun _ _ => "80000000", fun _ => 3⟩

/-- A concrete start configuration: one user with balance 1000 and a freshly
constructed room with volatility 1. -/
def confA : Config :=
  ⟨⟨[(1, 1000)], true⟩, initRoom (fun s => "H" ++ s) "s0" "T" "R" 1⟩

/-- `parseFloat(x.toFixed(2))` on the idealised real value: round to the
nearest multiple of 1/100 (ties away from zero; the sampled values are
positive). -/
noncomputable def toFixed2R (x : ℝ) : ℝ := ((round (100 * x) : ℤ) : ℝ) / 100

/-- The multiplier the game loop samples at elapsed seconds `t` for
volatility `lam`, with `Math.pow(Math.E, ·)` idealised as the real
exponential: `Math.max(1.00, parseFloat(Math.pow(Math.E, k*t*2.5).toFixed(2)))`
where `k = 0.065 * (2.0 / lam)`. -/
noncomputable def multiplierFormula (lam t : ℝ) : ℝ :=
  max 1 (toFixed2R (Real.exp ((65 / 1000) * (2 / lam) * t * (5 / 2))))

/-- Modelled from the spec (§4.2 Round Clock / Multiplier Growth): the same
growth formula but with `round2` TRUNCATING the value to 2 decimal places, as
the spec and claim C7 assert. -/
noncomputable def trunc2R (x : ℝ) : ℝ := ((⌊100 * x⌋ : ℤ) : ℝ) / 100

/-- Modelled from the spec (§4.2): `multiplier(t) = max(1.00, round2(e^(k * t
* 2.5)))` with `k = 0.065 * (2.0 / λ)` and truncating `round2`. -/
noncomputable def multiplierFormulaSpec (lam t : ℝ) : ℝ :=
  max 1 (trunc2R (Real.exp ((65 / 1000) * (2 / lam) * t * (5 / 2))))

/-! ### Basic lemmas about the embedded operations -/

theorem mapGet_mapSet_self {α : Type} (m : List (ℕ × α)) (u : ℕ) (v : α) :
    mapGet (mapSet m u v) u = some v := by
  induction m with
  | nil => simp [mapGet, mapSet]
  | cons hd tl ih =>
      obtain ⟨k, w⟩ := hd
      by_cases h : k = u
      · simp [mapSet, h, mapGet]
      · simp [mapSet, h, mapGet, ih]

theorem getCrashPoint_eq_spec (digest : String) :
    getCrashPoint digest = crashPointFromSpec digest := rfl

theorem one_le_getCrashPoint (digest : String) : 1 ≤ getCrashPoint digest := by
  unfold getCrashPoint
  split
  · exact le_refl 1
  · exact le_max_left _ _

theorem tick_multiplier_eq (expE : ℚ → ℚ) (t : ℚ) (g : GameRoom) :
    ((tick expE t g).1).multiplier =
      max 1 (toFixed2 (expE ((65 / 1000) * (2 / g.lambda) * t * (5 / 2)))) := by
  unfold tick crashGame
  dsimp only
  split <;> rfl

theorem place_bet_room_bets (L : Ledger) (g : GameRoom) (u : ℕ) (a : ℚ) :
    ∃ bs, (place_bet L g u a).2.1 = { g with bets := bs } := by
  unfold place_bet
  split
  · exact ⟨g.bets, rfl⟩
  split
  · exact ⟨g.bets, rfl⟩
  rcases h : updateUserBalance L u (-a) with e | p
  · exact ⟨g.bets, rfl⟩
  · obtain ⟨L2, nb⟩ := p
    exact ⟨mapSet g.bets u ⟨a, false, 0⟩, rfl⟩

theorem cash_out_room_bets (L : Ledger) (g : GameRoom) (u : ℕ) :
    ∃ bs, (cash_out L g u).2.1 = { g with bets := bs } := by
  unfold cash_out
  split
  · exact ⟨g.bets, rfl⟩
  rcases hb : mapGet g.bets u with _ | bet
  · exact ⟨g.bets, rfl⟩
  dsimp only
  split
  · exact ⟨g.bets, rfl⟩
  split
  · exact ⟨g.bets, rfl⟩
  rcases h : updateUserBalance L u ((⌊bet.amount * g.multiplier⌋ : ℤ) : ℚ) with e | p
  · exact ⟨mapSet g.bets u (cashedBet bet g.multiplier), rfl⟩
  · obtain ⟨L2, nb⟩ := p
    exact ⟨mapSet g.bets u (cashedBet bet g.multiplier), rfl⟩

theorem cash_out_not_running (L : Ledger) (g : GameRoom) (u : ℕ)
    (h : g.isRunning = false) :
    cash_out L g u = (L, g, [Event.cashOutError u .notRunning]) := by
  simp [cash_out, h]

/-! ### Claim C1 -/

/-- Claim C1 (amended): when the ledger debit of a bet-placement command
fails, the ledger and the Room's in-memory state are both left unchanged; but
when the ledger credit of a cash-out command fails, the handler has already
mutated the caller's Bet (cashedOut set, winAmount recorded) before the
credit, so only the ledger, the phase/multiplier/crash-point fields and the
other users' bets are unchanged — the caller's Bet is not rolled back. -/
theorem c1_ledger_failure_amended :
    (∀ (L : Ledger) (g : GameRoom) (u : ℕ) (a : ℚ) (e : LedgerErr),
        updateUserBalance L u (-a) = .error e →
        (place_bet L g u a).1 = L ∧ (place_bet L g u a).2.1 = g) ∧
    (∀ (L : Ledger) (g : GameRoom) (u : ℕ) (bet : Bet) (e : LedgerErr),
        g.isRunning = true → mapGet g.bets u = some bet →
        bet.cashedOut = false → ¬ g.crashPoint < g.multiplier →
        updateUserBalance L u ((⌊bet.amount * g.multiplier⌋ : ℤ) : ℚ) = .error e →
        cash_out L g u =
          (L, { g with bets := mapSet g.bets u (cashedBet bet g.multiplier) }, [])) := by
  constructor
  · intro L g u a e herr
    unfold place_bet
    split
    · exact ⟨rfl, rfl⟩
    · split
      · exact ⟨rfl, rfl⟩
      · rw [herr]
        exact ⟨rfl, rfl⟩
  · intro L g u bet e hrun hbet hco hlt herr
    unfold cash_out
    rw [hrun, hbet]
    simp only [hco, Bool.false_eq_true, Bool.true_eq_false, if_false, if_neg hlt, herr]

/-- Witness for C1 (amended) at concrete inputs: a debit rejected by an
unavailable store leaves everything unchanged, and a credit rejected by an
unavailable store leaves the ledger unchanged while the bet is mutated. -/
theorem c1_ledger_failure_amended_witness :
    ((place_bet ⟨[(1, 900)], false⟩
        ⟨"T", 1, "R", true, 1, 6000, 2, [], "s", "h", 2⟩ 1 100).1 =
          ⟨[(1, 900)], false⟩ ∧
      (place_bet ⟨[(1, 900)], false⟩
        ⟨"T", 1, "R", true, 1, 6000, 2, [], "s", "h", 2⟩ 1 100).2.1 =
          ⟨"T", 1, "R", true, 1, 6000, 2, [], "s", "h", 2⟩) ∧
    cash_out ⟨[(1, 900)], false⟩
        ⟨"T", 1, "R", true, 3/2, 6000, 2, [(1, ⟨100, false, 0⟩)], "s", "h", 2⟩ 1 =
      (⟨[(1, 900)], false⟩,
       { (⟨"T", 1, "R", true, 3/2, 6000, 2, [(1, ⟨100, false, 0⟩)], "s", "h", 2⟩ : GameRoom) with
         bets := mapSet [(1, ⟨100, false, 0⟩)] 1 (cashedBet ⟨100, false, 0⟩ (3/2)) },
       []) :=
  ⟨c1_ledger_failure_amended.1 ⟨[(1, 900)], false⟩
      ⟨"T", 1, "R", true, 1, 6000, 2, [], "s", "h", 2⟩ 1 100 .unavailable
      (by with_unfolding_all rfl),
   c1_ledger_failure_amended.2 ⟨[(1, 900)], false⟩
      ⟨"T", 1, "R", true, 3/2, 6000, 2, [(1, ⟨100, false, 0⟩)], "s", "h", 2⟩ 1
      ⟨100, false, 0⟩ .unavailable rfl (by with_unfolding_all rfl) rfl
      (by norm_num) (by with_unfolding_all rfl)⟩

/-- Claim C1 as stated is false: a cash-out whose ledger credit fails (store
unavailable) leaves the Room's in-memory state different from its state
before the command — the caller's Bet has been marked cashed out. -/
theorem c1_ledger_failure_cex :
    (cash_out ⟨[(1, 900)], false⟩
        ⟨"T", 1, "R", true, 3/2, 6000, 2, [(1, ⟨100, false, 0⟩)], "s", "h", 2⟩ 1).2.1 ≠
      ⟨"T", 1, "R", true, 3/2, 6000, 2, [(1, ⟨100, false, 0⟩)], "s", "h", 2⟩ := by
  intro h
  have h1 : mapGet ((cash_out ⟨[(1, 900)], false⟩
      ⟨"T", 1, "R", true, 3/2, 6000, 2, [(1, ⟨100, false, 0⟩)], "s", "h", 2⟩ 1).2.1).bets 1 =
      some ⟨100, true, 150⟩ := by with_unfolding_all rfl
  rw [h] at h1
  have h2 : mapGet [(1, (⟨100, false, 0⟩ : Bet))] 1 = some ⟨100, false, 0⟩ := rfl
  rw [h2] at h1
  simp only [Option.some.injEq] at h1
  exact absurd (congrArg Bet.cashedOut h1) (by decide)

/-! ### Claim C2 -/

/-- Claim C2 (amended): the reference bet handler has no duplicate-bet check:
a second `placeBet` by a user who already holds a Bet in the current round is
not rejected — subject only to the same phase, amount and funds checks it is
accepted, the user's balance is debited again (once per accepted command, not
once per round), and the new Bet replaces the existing one. -/
theorem c2_second_bet_amended :
    ∀ (L L2 : Ledger) (g : GameRoom) (u : ℕ) (a nb : ℚ) (bet : Bet),
      mapGet g.bets u = some bet →
      ¬ 1 < g.multiplier → ¬ a ≤ 0 →
      updateUserBalance L u (-a) = .ok (L2, nb) →
      place_bet L g u a =
        (L2, { g with bets := mapSet g.bets u ⟨a, false, 0⟩ },
         [Event.betSuccess u a,
          Event.balanceUpdate u (match mapGet L2.balances u with
                                 | some b => b
                                 | none => 0)]) := by
  intro L L2 g u a nb bet hbet hmult hamt hok
  unfold place_bet
  rw [if_neg hmult, if_neg hamt, hok]

/-- Witness for C2 (amended): user 1 already holds a 100-unit Bet, places a
second 50-unit bet during the betting window; it succeeds, the balance is
debited a second time (500 → 450) and the 50-unit Bet replaces the 100-unit
one. -/
theorem c2_second_bet_amended_witness :
    place_bet ⟨[(1, 500)], true⟩
        ⟨"T", 1, "R", true, 1, 6000, 99/50, [(1, ⟨100, false, 0⟩)], "s", "h", 2⟩ 1 50 =
      (⟨[(1, 450)], true⟩,
       { (⟨"T", 1, "R", true, 1, 6000, 99/50, [(1, ⟨100, false, 0⟩)], "s", "h", 2⟩ : GameRoom) with
         bets := mapSet [(1, ⟨100, false, 0⟩)] 1 ⟨50, false, 0⟩ },
       [Event.betSuccess 1 50,
        Event.balanceUpdate 1 (match mapGet [(1, (450 : ℚ))] 1 with
                               | some b => b
                               | none => 0)]) :=
  c2_second_bet_amended ⟨[(1, 500)], true⟩ ⟨[(1, 450)], true⟩
    ⟨"T", 1, "R", true, 1, 6000, 99/50, [(1, ⟨100, false, 0⟩)], "s", "h", 2⟩
    1 50 450 ⟨100, false, 0⟩ rfl (by norm_num) (by norm_num)
    (by with_unfolding_all rfl)

/-- Claim C2 as stated is false: with a Bet for user 1 already recorded in
the current round, a second `placeBet` is accepted (a `betSuccess` is
emitted, there is no AlreadyBet rejection), the balance is debited a second
time, and the stored Bet is replaced. -/
theorem c2_second_bet_cex :
    (place_bet ⟨[(1, 500)], true⟩
        ⟨"T", 1, "R", true, 1, 6000, 99/50, [(1, ⟨100, false, 0⟩)], "s", "h", 2⟩ 1 50).2.2 =
      [Event.betSuccess 1 50, Event.balanceUpdate 1 450] ∧
    (place_bet ⟨[(1, 500)], true⟩
        ⟨"T", 1, "R", true, 1, 6000, 99/50, [(1, ⟨100, false, 0⟩)], "s", "h", 2⟩ 1 50).1.balances =
      [(1, 450)] ∧
    mapGet ((place_bet ⟨[(1, 500)], true⟩
        ⟨"T", 1, "R", true, 1, 6000, 99/50, [(1, ⟨100, false, 0⟩)], "s", "h", 2⟩ 1 50).2.1).bets 1 =
      some ⟨50, false, 0⟩ := by
  refine ⟨?_, ?_, ?_⟩ <;> with_unfolding_all rfl

/-! ### Claim C3 -/

/-- Claim C3 (amended): cash-out is gated only on `isRunning`, which is set
at round start and covers the whole betting window: a cash-out during the
CRASHED cooldown (`isRunning = false`) fails with NotRunning and changes
nothing, but a cash-out of an existing un-cashed bet during the BETTING
window (before the running start time, `multiplier = 1.00`, crash point at
least 1.00) succeeds, marking the bet cashed out with
`winAmount = floor(amount * 1.00)`. -/
theorem c3_cashout_phase_amended :
    (∀ (L : Ledger) (g : GameRoom) (u : ℕ), g.isRunning = false →
        cash_out L g u = (L, g, [Event.cashOutError u .notRunning])) ∧
    (∀ (L : Ledger) (g : GameRoom) (u : ℕ) (bet : Bet),
        g.isRunning = true → g.multiplier = 1 → 1 ≤ g.crashPoint →
        mapGet g.bets u = some bet → bet.cashedOut = false →
        ((cash_out L g u).2.1).bets = mapSet g.bets u (cashedBet bet 1)) := by
  constructor
  · intro L g u h
    exact cash_out_not_running L g u h
  · intro L g u bet hrun hmult hcp hbet hco
    unfold cash_out
    rw [hrun, hbet]
    simp only [hco, hmult, Bool.false_eq_true, Bool.true_eq_false, if_false,
               if_neg (not_lt.mpr hcp)]
    split <;> rfl

/-- Witness for C3 (amended): concrete CRASHED-cooldown rejection, and a
concrete betting-window cash-out that mutates the bet. -/
theorem c3_cashout_phase_amended_witness :
    cash_out ⟨[(1, 900)], true⟩
        ⟨"T", 1, "R", false, 99/50, 6000, 99/50, [(1, ⟨100, false, 0⟩)], "s", "h", 2⟩ 1 =
      (⟨[(1, 900)], true⟩,
       ⟨"T", 1, "R", false, 99/50, 6000, 99/50, [(1, ⟨100, false, 0⟩)], "s", "h", 2⟩,
       [Event.cashOutError 1 .notRunning]) ∧
    ((cash_out ⟨[(1, 900)], true⟩
        ⟨"T", 1, "R", true, 1, 6000, 99/50, [(1, ⟨100, false, 0⟩)], "s", "h", 2⟩ 1).2.1).bets =
      mapSet [(1, ⟨100, false, 0⟩)] 1 (cashedBet ⟨100, false, 0⟩ 1) :=
  ⟨c3_cashout_phase_amended.1 ⟨[(1, 900)], true⟩
      ⟨"T", 1, "R", false, 99/50, 6000, 99/50, [(1, ⟨100, false, 0⟩)], "s", "h", 2⟩ 1 rfl,
   c3_cashout_phase_amended.2 ⟨[(1, 900)], true⟩
      ⟨"T", 1, "R", true, 1, 6000, 99/50, [(1, ⟨100, false, 0⟩)], "s", "h", 2⟩ 1
      ⟨100, false, 0⟩ rfl rfl (by norm_num) rfl rfl⟩

/-- Claim C3 as stated is false: in a reachable execution, a cash-out
processed at time 2000, inside the 6-second BETTING window (before the
scheduled running start time 6000), succeeds and credits
`winAmount = 100` — it is not rejected. -/
theorem c3_cashout_phase_cex :
    (run extA confA
        [(0, .startG "s1"), (1000, .placeBet 1 100), (2000, .cashOut 1)]).2 =
      [Event.gameStart "T" 2 "Hs1" 6000, Event.betSuccess 1 100,
       Event.balanceUpdate 1 900, Event.cashOutSuccess 1 1 100,
       Event.balanceUpdate 1 1000] ∧
    ((run extA confA
        [(0, .startG "s1"), (1000, .placeBet 1 100), (2000, .cashOut 1)]).1).ledger.balances =
      [(1, 1000)] ∧
    ((run extA confA
        [(0, .startG "s1"), (1000, .placeBet 1 100), (2000, .cashOut 1)]).1).room.startTime =
      6000 ∧ (2000 : ℤ) < 6000 := by
  refine ⟨?_, ?_, ?_, by norm_num⟩ <;> with_unfolding_all rfl

/-! ### Claim C5 -/

/-- Claim C5 (amended): bet acceptance is governed solely by the room's
multiplier, not by the scheduled running start time: a placeBet is rejected
(with no debit) exactly when `multiplier > 1.00`, which first happens at the
first RUNNING tick that rounds above 1.00; the handler ignores the processing
time entirely, so a placeBet processed after the running start time but
before such a tick is still accepted and debited. -/
theorem c5_bet_window_amended :
    (∀ (L : Ledger) (g : GameRoom) (u : ℕ) (a : ℚ), 1 < g.multiplier →
        place_bet L g u a = (L, g, [Event.betError u .gameStarted])) ∧
    (∀ (E : Ext) (c : Config) (n1 n2 : ℤ) (u : ℕ) (a : ℚ),
        step E c n1 (.placeBet u a) = step E c n2 (.placeBet u a)) := by
  constructor
  · intro L g u a h
    unfold place_bet
    rw [if_pos h]
  · intro E c n1 n2 u a
    rfl

/-- Witness for C5 (amended): a concrete rejection at multiplier 1.5, and
time-independence of the handler at two distinct processing times. -/
theorem c5_bet_window_amended_witness :
    place_bet ⟨[(1, 900)], true⟩
        ⟨"T", 1, "R", true, 3/2, 6000, 99/50, [], "s", "h", 2⟩ 1 100 =
      (⟨[(1, 900)], true⟩, ⟨"T", 1, "R", true, 3/2, 6000, 99/50, [], "s", "h", 2⟩,
       [Event.betError 1 .gameStarted]) ∧
    step extA confA 6001 (.placeBet 1 100) = step extA confA 9999 (.placeBet 1 100) :=
  ⟨c5_bet_window_amended.1 ⟨[(1, 900)], true⟩
      ⟨"T", 1, "R", true, 3/2, 6000, 99/50, [], "s", "h", 2⟩ 1 100 (by norm_num),
   c5_bet_window_amended.2 extA confA 6001 9999 1 100⟩

/-- Claim C5 as stated is false: in a reachable execution whose round-start
event schedules the running start time 6000, a placeBet processed at time
6500 (after RUNNING began, before the first tick) is accepted and the
balance debited. -/
theorem c5_bet_window_cex :
    (run extA confA [(0, .startG "s1"), (6500, .placeBet 1 100)]).2 =
      [Event.gameStart "T" 2 "Hs1" 6000, Event.betSuccess 1 100,
       Event.balanceUpdate 1 900] ∧
    ((run extA confA [(0, .startG "s1"), (6500, .placeBet 1 100)]).1).ledger.balances =
      [(1, 900)] ∧
    ((run extA confA [(0, .startG "s1"), (6500, .placeBet 1 100)]).1).room.startTime =
      6000 ∧ (6000 : ℤ) < 6500 := by
  refine ⟨?_, ?_, ?_, by norm_num⟩ <;> with_unfolding_all rfl

/-! ### Claim C9 -/

/-- Claim C9 (amended): once the engine detects `multiplier >= crashPoint`
the same tick marks the round not running; every later command other than a
round start leaves it not running, and every cash-out processed in that
region fails with the NotRunning error ('Game not running') — not TooLate
('Crashed!') — with no credit and no state change. -/
theorem c9_too_late_amended :
    (∀ (expE : ℚ → ℚ) (t : ℚ) (g : GameRoom) (cp : ℚ) (s : String),
        Event.crash cp s ∈ (tick expE t g).2 →
        ((tick expE t g).1).isRunning = false) ∧
    (∀ (E : Ext) (c : Config) (now : ℤ) (cmd : Cmd),
        c.room.isRunning = false → (∀ seed, cmd ≠ .startG seed) →
        (((step E c now cmd).1).room).isRunning = false) ∧
    (∀ (L : Ledger) (g : GameRoom) (u : ℕ), g.isRunning = false →
        cash_out L g u = (L, g, [Event.cashOutError u .notRunning])) := by
  refine ⟨?_, ?_, ?_⟩
  · intro expE t g cp s
    unfold tick crashGame
    dsimp only
    split
    · intro _
      rfl
    · intro hmem
      exact absurd hmem (by simp)
  · intro E c now cmd hrun hns
    cases cmd with
    | startG seed => exact absurd rfl (hns seed)
    | tickFire t =>
        unfold step tick crashGame
        dsimp only
        split
        · rfl
        · exact hrun
    | placeBet u a =>
        obtain ⟨bs, hbs⟩ := place_bet_room_bets c.ledger c.room u a
        show ((place_bet c.ledger c.room u a).2.1).isRunning = false
        rw [hbs]
        exact hrun
    | cashOut u =>
        obtain ⟨bs, hbs⟩ := cash_out_room_bets c.ledger c.room u
        show ((cash_out c.ledger c.room u).2.1).isRunning = false
        rw [hbs]
        exact hrun
  · intro L g u h
    exact cash_out_not_running L g u h

/-- Witness for C9 (amended) at concrete inputs: a crash-detecting tick
leaves the room not running, a later cash-out command preserves that, and a
cash-out against a crashed room is rejected as NotRunning. -/
theorem c9_too_late_amended_witness :
    ((tick (fun _ => (3 : ℚ)) 1
        ⟨"T", 1, "R", true, 1, 6000, 99/50, [], "s", "h", 2⟩).1).isRunning = false ∧
    (((step extA ⟨⟨[(1, 900)], true⟩,
        ⟨"T", 1, "R", false, 3, 6000, 99/50, [], "s", "h", 2⟩⟩ 6100
        (.cashOut 1)).1).room).isRunning = false ∧
    cash_out ⟨[(1, 900)], true⟩
        ⟨"T", 1, "R", false, 3, 6000, 99/50, [], "s", "h", 2⟩ 1 =
      (⟨[(1, 900)], true⟩, ⟨"T", 1, "R", false, 3, 6000, 99/50, [], "s", "h", 2⟩,
       [Event.cashOutError 1 .notRunning]) :=
  ⟨c9_too_late_amended.1 (fun _ => (3 : ℚ)) 1
      ⟨"T", 1, "R", true, 1, 6000, 99/50, [], "s", "h", 2⟩ (99/50) "s"
      (by with_unfolding_all decide),
   c9_too_late_amended.2.1 extA ⟨⟨[(1, 900)], true⟩,
      ⟨"T", 1, "R", false, 3, 6000, 99/50, [], "s", "h", 2⟩⟩ 6100 (.cashOut 1) rfl
      (fun seed h => by cases h),
   c9_too_late_amended.2.2 ⟨[(1, 900)], true⟩
      ⟨"T", 1, "R", false, 3, 6000, 99/50, [], "s", "h", 2⟩ 1 rfl⟩

/-- Claim C9 as stated is false: in a reachable execution where the engine
has already detected the crash (the tick at 6050 emitted the crash event), a
cash-out by a user holding an active bet is rejected with the NotRunning
error, not the TooLate error; no credit is made. -/
theorem c9_too_late_cex :
    (run extA confA
        [(0, .startG "s1"), (1000, .placeBet 1 100), (6050, .tickFire 1),
         (6100, .cashOut 1)]).2 =
      [Event.gameStart "T" 2 "Hs1" 6000, Event.betSuccess 1 100,
       Event.balanceUpdate 1 900, Event.crash (99/50) "s1",
       Event.cashOutError 1 .notRunning] ∧
    Event.cashOutError 1 .tooLate ∉
      (run extA confA
        [(0, .startG "s1"), (1000, .placeBet 1 100), (6050, .tickFire 1),
         (6100, .cashOut 1)]).2 ∧
    ((run extA confA
        [(0, .startG "s1"), (1000, .placeBet 1 100), (6050, .tickFire 1),
         (6100, .cashOut 1)]).1).ledger.balances = [(1, 900)] := by
  have h1 : (run extA confA
      [(0, .startG "s1"), (1000, .placeBet 1 100), (6050, .tickFire 1),
       (6100, .cashOut 1)]).2 =
      [Event.gameStart "T" 2 "Hs1" 6000, Event.betSuccess 1 100,
       Event.balanceUpdate 1 900, Event.crash (99/50) "s1",
       Event.cashOutError 1 .notRunning] := by with_unfolding_all rfl
  refine ⟨h1, ?_, by with_unfolding_all rfl⟩
  rw [h1]
  intro hmem
  simp only [List.mem_cons, List.not_mem_nil, or_false] at hmem
  rcases hmem with h | h | h | h | h <;> simp_all

theorem startGame_multiplier (sha : String → String)
    (hmac : String → String → String) (newSeed : String) (now : ℤ)
    (g : GameRoom) :
    ((startGame sha hmac newSeed now g).1).multiplier = g.multiplier ∨
    ((startGame sha hmac newSeed now g).1).multiplier = 1 := by
  unfold startGame
  split
  · exact Or.inl rfl
  · exact Or.inr rfl

theorem reachable_one_le_multiplier (E : Ext) (c : Config)
    (h : Reachable E c) : 1 ≤ c.room.multiplier := by
  induction h with
  | init L0 seed0 ticker roomName lam => exact le_refl 1
  | next c now cmd hc ih =>
      cases cmd with
      | startG seed =>
          show 1 ≤ ((startGame E.sha E.hmac seed now c.room).1).multiplier
          rcases startGame_multiplier E.sha E.hmac seed now c.room with h | h
          · rw [h]; exact ih
          · rw [h]
      | tickFire t =>
          show 1 ≤ ((tick E.expE t c.room).1).multiplier
          rw [tick_multiplier_eq]
          exact le_max_left 1 _
      | placeBet u a =>
          obtain ⟨bs, hbs⟩ := place_bet_room_bets c.ledger c.room u a
          show 1 ≤ ((place_bet c.ledger c.room u a).2.1).multiplier
          rw [hbs]
          exact ih
      | cashOut u =>
          obtain ⟨bs, hbs⟩ := cash_out_room_bets c.ledger c.room u
          show 1 ≤ ((cash_out c.ledger c.room u).2.1).multiplier
          rw [hbs]
          exact ih

/-! ### Claim C6 -/

/-- Claim C6 (amended): at most one cashOut succeeds per Bet. The successful
cash-out records `winAmount = floor(bet.amount * currentMultiplier)` using
the multiplier observed at processing time, marks the Bet cashed out, and
credits the ledger once.  A subsequent cashOut for the same Bet performs no
further credit and changes nothing; while the round is still running it
fails with AlreadyCashedOut, but once the round has crashed
(`isRunning = false`) it fails with NotRunning instead. -/
theorem c6_cashout_idempotent_amended :
    (∀ (L L2 : Ledger) (g : GameRoom) (u : ℕ) (bet : Bet) (nb : ℚ),
        g.isRunning = true → mapGet g.bets u = some bet →
        bet.cashedOut = false → ¬ g.crashPoint < g.multiplier →
        updateUserBalance L u ((⌊bet.amount * g.multiplier⌋ : ℤ) : ℚ) = .ok (L2, nb) →
        cash_out L g u =
          (L2, { g with bets := mapSet g.bets u (cashedBet bet g.multiplier) },
           [Event.cashOutSuccess u g.multiplier ((⌊bet.amount * g.multiplier⌋ : ℤ) : ℚ),
            Event.balanceUpdate u nb])) ∧
    (∀ (L : Ledger) (g : GameRoom) (u : ℕ) (bet : Bet),
        g.isRunning = true → mapGet g.bets u = some bet → bet.cashedOut = true →
        cash_out L g u = (L, g, [Event.cashOutError u .alreadyCashedOut])) ∧
    (∀ (L : Ledger) (g : GameRoom) (u : ℕ), g.isRunning = false →
        cash_out L g u = (L, g, [Event.cashOutError u .notRunning])) := by
  refine ⟨?_, ?_, ?_⟩
  · intro L L2 g u bet nb hrun hbet hco hlt hok
    unfold cash_out
    rw [hrun, hbet]
    simp only [hco, Bool.false_eq_true, Bool.true_eq_false, if_false,
               if_neg hlt, hok]
  · intro L g u bet hrun hbet hco
    unfold cash_out
    rw [hrun, hbet]
    simp only [hco, Bool.true_eq_false, if_false, if_true]
  · intro L g u h
    exact cash_out_not_running L g u h

/-- Witness for C6 (amended) at concrete inputs: a successful cash-out at
multiplier 1.5 of a 100-unit bet wins `floor(150) = 150`; a repeat against
the cashed-out Bet while running fails with AlreadyCashedOut; a repeat after
the crash fails with NotRunning. -/
theorem c6_cashout_idempotent_amended_witness :
    cash_out ⟨[(1, 900)], true⟩
        ⟨"T", 1, "R", true, 3/2, 6000, 99/50, [(1, ⟨100, false, 0⟩)], "s", "h", 2⟩ 1 =
      (⟨[(1, 1050)], true⟩,
       { (⟨"T", 1, "R", true, 3/2, 6000, 99/50, [(1, ⟨100, false, 0⟩)], "s", "h", 2⟩ : GameRoom) with
         bets := mapSet [(1, ⟨100, false, 0⟩)] 1 (cashedBet ⟨100, false, 0⟩ (3/2)) },
       [Event.cashOutSuccess 1 (3/2) ((⌊(100 : ℚ) * (3/2)⌋ : ℤ) : ℚ),
        Event.balanceUpdate 1 1050]) ∧
    cash_out ⟨[(1, 1050)], true⟩
        ⟨"T", 1, "R", true, 3/2, 6000, 99/50, [(1, ⟨100, true, 150⟩)], "s", "h", 2⟩ 1 =
      (⟨[(1, 1050)], true⟩,
       ⟨"T", 1, "R", true, 3/2, 6000, 99/50, [(1, ⟨100, true, 150⟩)], "s", "h", 2⟩,
       [Event.cashOutError 1 .alreadyCashedOut]) ∧
    cash_out ⟨[(1, 1050)], true⟩
        ⟨"T", 1, "R", false, 99/50, 6000, 99/50, [(1, ⟨100, true, 150⟩)], "s", "h", 2⟩ 1 =
      (⟨[(1, 1050)], true⟩,
       ⟨"T", 1, "R", false, 99/50, 6000, 99/50, [(1, ⟨100, true, 150⟩)], "s", "h", 2⟩,
       [Event.cashOutError 1 .notRunning]) :=
  ⟨by
    have h := c6_cashout_idempotent_amended.1 ⟨[(1, 900)], true⟩ ⟨[(1, 1050)], true⟩
      ⟨"T", 1, "R", true, 3/2, 6000, 99/50, [(1, ⟨100, false, 0⟩)], "s", "h", 2⟩ 1
      ⟨100, false, 0⟩ 1050 rfl rfl rfl (by norm_num) (by with_unfolding_all rfl)
    exact h,
   c6_cashout_idempotent_amended.2.1 ⟨[(1, 1050)], true⟩
      ⟨"T", 1, "R", true, 3/2, 6000, 99/50, [(1, ⟨100, true, 150⟩)], "s", "h", 2⟩ 1
      ⟨100, true, 150⟩ rfl rfl rfl,
   c6_cashout_idempotent_amended.2.2 ⟨[(1, 1050)], true⟩
      ⟨"T", 1, "R", false, 99/50, 6000, 99/50, [(1, ⟨100, true, 150⟩)], "s", "h", 2⟩ 1 rfl⟩

/-- Claim C6 as stated is false: after a successful cash-out, a subsequent
cashOut for the same Bet issued after the round crashed fails with the
NotRunning error rather than AlreadyCashedOut (it still performs no
additional credit). -/
theorem c6_cashout_idempotent_cex :
    (run extA confA
        [(0, .startG "s1"), (1000, .placeBet 1 100), (2000, .cashOut 1),
         (6050, .tickFire 1), (6100, .cashOut 1)]).2 =
      [Event.gameStart "T" 2 "Hs1" 6000, Event.betSuccess 1 100,
       Event.balanceUpdate 1 900, Event.cashOutSuccess 1 1 100,
       Event.balanceUpdate 1 1000, Event.crash (99/50) "s1",
       Event.cashOutError 1 .notRunning] ∧
    Event.cashOutError 1 .alreadyCashedOut ∉
      (run extA confA
        [(0, .startG "s1"), (1000, .placeBet 1 100), (2000, .cashOut 1),
         (6050, .tickFire 1), (6100, .cashOut 1)]).2 ∧
    ((run extA confA
        [(0, .startG "s1"), (1000, .placeBet 1 100), (2000, .cashOut 1),
         (6050, .tickFire 1), (6100, .cashOut 1)]).1).ledger.balances =
      [(1, 1000)] := by
  have h1 : (run extA confA
      [(0, .startG "s1"), (1000, .placeBet 1 100), (2000, .cashOut 1),
       (6050, .tickFire 1), (6100, .cashOut 1)]).2 =
      [Event.gameStart "T" 2 "Hs1" 6000, Event.betSuccess 1 100,
       Event.balanceUpdate 1 900, Event.cashOutSuccess 1 1 100,
       Event.balanceUpdate 1 1000, Event.crash (99/50) "s1",
       Event.cashOutError 1 .notRunning] := by with_unfolding_all rfl
  refine ⟨h1, ?_, by with_unfolding_all rfl⟩
  rw [h1]
  intro hmem
  simp only [List.mem_cons, List.not_mem_nil, or_false] at hmem
  rcases hmem with h | h | h | h | h | h | h <;> simp_all

/-! ### Claim C10 -/

/-- Claim C10: in the bet handler the phase check precedes the amount check:
whenever `multiplier > 1.0` the handler rejects with the game-already-started
error even for non-positive amounts, and a reachable configuration whose
handler rejects with the invalid-amount error necessarily has
`multiplier = 1.00`. -/
theorem c10_check_order :
    (∀ (L : Ledger) (g : GameRoom) (u : ℕ) (a : ℚ), 1 < g.multiplier →
        place_bet L g u a = (L, g, [Event.betError u .gameStarted])) ∧
    (∀ (E : Ext) (c : Config) (u : ℕ) (a : ℚ), Reachable E c →
        (place_bet c.ledger c.room u a).2.2 = [Event.betError u .invalidAmount] →
        c.room.multiplier = 1) := by
  constructor
  · intro L g u a h
    unfold place_bet
    rw [if_pos h]
  · intro E c u a hr hres
    by_cases hm : 1 < c.room.multiplier
    · exfalso
      unfold place_bet at hres
      rw [if_pos hm] at hres
      simp at hres
    · exact le_antisymm (not_lt.mp hm) (reachable_one_le_multiplier E c hr)

/-- Witness for C10 at concrete inputs: with multiplier 1.5 and the invalid
amount 0, the handler reports game-already-started; and a freshly
constructed (reachable) room that reports invalid-amount for amount 0 indeed
has multiplier exactly 1.00. -/
theorem c10_check_order_witness :
    place_bet ⟨[(1, 900)], true⟩
        ⟨"T", 1, "R", true, 3/2, 6000, 99/50, [], "s", "h", 2⟩ 1 0 =
      (⟨[(1, 900)], true⟩, ⟨"T", 1, "R", true, 3/2, 6000, 99/50, [], "s", "h", 2⟩,
       [Event.betError 1 .gameStarted]) ∧
    confA.room.multiplier = 1 :=
  ⟨c10_check_order.1 ⟨[(1, 900)], true⟩
      ⟨"T", 1, "R", true, 3/2, 6000, 99/50, [], "s", "h", 2⟩ 1 0 (by norm_num),
   c10_check_order.2 extA confA 1 0
      (Reachable.init ⟨[(1, 1000)], true⟩ "s0" "T" "R" 1)
      (by with_unfolding_all rfl)⟩

theorem startGame_not_running (sha : String → String)
    (hmac : String → String → String) (seed : String) (now : ℤ)
    (g : GameRoom) (h : g.isRunning = false) :
    startGame sha hmac seed now g =
      ({ ticker := g.ticker, lambda := g.lambda, roomName := g.roomName,
         isRunning := true, multiplier := 1, startTime := now + 6000,
         crashPoint :=
           getCrashPoint (hmac (seed ++ ":" ++ toString (g.nonce + 1)) seed),
         bets := [], serverSeed := seed, serverSeedHash := sha seed,
         nonce := g.nonce + 1 },
       [Event.gameStart g.ticker (g.nonce + 1) (sha seed) (now + 6000)]) := by
  unfold startGame rotateSeed
  rw [if_neg (by simp [h])]

theorem tick_room_fields (expE : ℚ → ℚ) (t : ℚ) (g : GameRoom) :
    ((tick expE t g).1).serverSeed = g.serverSeed ∧
    ((tick expE t g).1).serverSeedHash = g.serverSeedHash ∧
    ((tick expE t g).1).nonce = g.nonce ∧
    ((tick expE t g).1).crashPoint = g.crashPoint := by
  unfold tick crashGame
  dsimp only
  split
  · exact ⟨rfl, rfl, rfl, rfl⟩
  · exact ⟨rfl, rfl, rfl, rfl⟩

theorem tick_crash_mem (expE : ℚ → ℚ) (t : ℚ) (g : GameRoom) (cp : ℚ)
    (s : String) (hmem : Event.crash cp s ∈ (tick expE t g).2) :
    cp = g.crashPoint ∧ s = g.serverSeed := by
  revert hmem
  unfold tick crashGame
  dsimp only
  split
  · intro hmem
    have h := List.mem_singleton.mp hmem
    exact ⟨(Event.crash.inj h).1, (Event.crash.inj h).2⟩
  · intro hmem
    exact absurd (List.mem_singleton.mp hmem) (by simp)

theorem place_bet_no_crash (L : Ledger) (g : GameRoom) (u : ℕ) (a : ℚ)
    (cp : ℚ) (s : String) : Event.crash cp s ∉ (place_bet L g u a).2.2 := by
  unfold place_bet
  split
  · simp
  split
  · simp
  rcases h : updateUserBalance L u (-a) with e | p
  · simp
  · obtain ⟨L2, nb⟩ := p
    simp

theorem cash_out_no_crash (L : Ledger) (g : GameRoom) (u : ℕ)
    (cp : ℚ) (s : String) : Event.crash cp s ∉ (cash_out L g u).2.2 := by
  unfold cash_out
  split
  · simp
  rcases hb : mapGet g.bets u with _ | bet
  · simp
  dsimp only
  split
  · simp
  split
  · simp
  rcases h : updateUserBalance L u ((⌊bet.amount * g.multiplier⌋ : ℤ) : ℚ) with e | p
  · simp
  · obtain ⟨L2, nb⟩ := p
    simp

theorem step_no_start_preserves (E : Ext) (c : Config) (now : ℤ) (cmd : Cmd)
    (hns : ∀ e ∈ (step E c now cmd).2, isStart e = false) :
    (((step E c now cmd).1).room).serverSeed = c.room.serverSeed ∧
    (((step E c now cmd).1).room).serverSeedHash = c.room.serverSeedHash ∧
    (((step E c now cmd).1).room).nonce = c.room.nonce ∧
    (((step E c now cmd).1).room).crashPoint = c.room.crashPoint ∧
    (∀ cp s, Event.crash cp s ∈ (step E c now cmd).2 →
      cp = c.room.crashPoint ∧ s = c.room.serverSeed) := by
  cases cmd with
  | startG seed =>
      by_cases hr : c.room.isRunning
      · have hst : step E c now (.startG seed) = (c, []) := by
          show (⟨c.ledger, (startGame E.sha E.hmac seed now c.room).1⟩,
                (startGame E.sha E.hmac seed now c.room).2) = (c, [])
          unfold startGame
          rw [if_pos hr]
        rw [hst]
        exact ⟨rfl, rfl, rfl, rfl, fun cp s h => absurd h (by simp)⟩
      · exfalso
        have hmem : Event.gameStart c.room.ticker (c.room.nonce + 1)
            (E.sha seed) (now + 6000) ∈ (step E c now (.startG seed)).2 := by
          show _ ∈ (startGame E.sha E.hmac seed now c.room).2
          rw [startGame_not_running E.sha E.hmac seed now c.room
                (Bool.eq_false_iff.mpr hr)]
          exact List.mem_singleton_self _
        have := hns _ hmem
        simp [isStart] at this
  | tickFire t =>
      obtain ⟨f1, f2, f3, f4⟩ := tick_room_fields E.expE t c.room
      exact ⟨f1, f2, f3, f4, fun cp s h => tick_crash_mem E.expE t c.room cp s h⟩
  | placeBet u a =>
      obtain ⟨bs, hbs⟩ := place_bet_room_bets c.ledger c.room u a
      have hroom : ((step E c now (.placeBet u a)).1).room =
          { c.room with bets := bs } := hbs
      rw [hroom]
      exact ⟨rfl, rfl, rfl, rfl,
             fun cp s h => absurd h (place_bet_no_crash c.ledger c.room u a cp s)⟩
  | cashOut u =>
      obtain ⟨bs, hbs⟩ := cash_out_room_bets c.ledger c.room u
      have hroom : ((step E c now (.cashOut u)).1).room =
          { c.room with bets := bs } := hbs
      rw [hroom]
      exact ⟨rfl, rfl, rfl, rfl,
             fun cp s h => absurd h (cash_out_no_crash c.ledger c.room u cp s)⟩

theorem run_no_start_preserves (E : Ext) (cmds : List (ℤ × Cmd)) (c : Config)
    (hns : ∀ e ∈ (run E c cmds).2, isStart e = false) :
    (((run E c cmds).1).room).serverSeed = c.room.serverSeed ∧
    (((run E c cmds).1).room).serverSeedHash = c.room.serverSeedHash ∧
    (((run E c cmds).1).room).nonce = c.room.nonce ∧
    (((run E c cmds).1).room).crashPoint = c.room.crashPoint ∧
    (∀ cp s, Event.crash cp s ∈ (run E c cmds).2 →
      cp = c.room.crashPoint ∧ s = c.room.serverSeed) := by
  induction cmds generalizing c with
  | nil =>
      exact ⟨rfl, rfl, rfl, rfl, fun cp s h => absurd h (by simp [run])⟩
  | cons tc rest ih =>
      have hrun_eq : run E c (tc :: rest) =
          ((run E (step E c tc.1 tc.2).1 rest).1,
           (step E c tc.1 tc.2).2 ++ (run E (step E c tc.1 tc.2).1 rest).2) := rfl
      rw [hrun_eq] at hns ⊢
      have hns1 : ∀ e ∈ (step E c tc.1 tc.2).2, isStart e = false :=
        fun e he => hns e (List.mem_append_left _ he)
      have hns2 : ∀ e ∈ (run E (step E c tc.1 tc.2).1 rest).2, isStart e = false :=
        fun e he => hns e (List.mem_append_right _ he)
      obtain ⟨s1, s2, s3, s4, s5⟩ := step_no_start_preserves E c tc.1 tc.2 hns1
      obtain ⟨r1, r2, r3, r4, r5⟩ := ih (step E c tc.1 tc.2).1 hns2
      refine ⟨by rw [r1, s1], by rw [r2, s2], by rw [r3, s3], by rw [r4, s4], ?_⟩
      intro cp s hmem
      rcases List.mem_append.mp hmem with h | h
      · exact s5 cp s h
      · obtain ⟨h1, h2⟩ := r5 cp s h
        exact ⟨by rw [h1, s4], by rw [h2, s1]⟩

/-! ### Claim C8 -/

/-- Claim C8: the commitment hash broadcast in a round-start event equals the
one-way hash of the serverSeed disclosed in that round's crash event: for any
round started by a `startGame` work item, if the remaining processing of the
round broadcasts no further round start, the seed disclosed by the crash
event hashes to exactly the published commitment — neither seed nor hash is
altered in between.  (`E.sha` stands for the external `CryptoJS.SHA256`.) -/
theorem c8_commitment :
    ∀ (E : Ext) (c : Config) (now : ℤ) (seed : String)
      (cmds : List (ℤ × Cmd)) (tk : String) (n : ℕ) (hsh : String) (st : ℤ)
      (cp : ℚ) (s : String),
      Event.gameStart tk n hsh st ∈ (step E c now (.startG seed)).2 →
      (∀ e ∈ (run E (step E c now (.startG seed)).1 cmds).2, isStart e = false) →
      Event.crash cp s ∈ (run E (step E c now (.startG seed)).1 cmds).2 →
      E.sha s = hsh := by
  intro E c now seed cmds tk n hsh st cp s hstart hns hcrash
  by_cases hr : c.room.isRunning
  · exfalso
    have hempty : (step E c now (.startG seed)).2 = [] := by
      show (startGame E.sha E.hmac seed now c.room).2 = []
      unfold startGame
      rw [if_pos hr]
    rw [hempty] at hstart
    exact absurd hstart (by simp)
  · have heq := startGame_not_running E.sha E.hmac seed now c.room
      (Bool.eq_false_iff.mpr hr)
    have hev : (step E c now (.startG seed)).2 =
        [Event.gameStart c.room.ticker (c.room.nonce + 1) (E.sha seed)
          (now + 6000)] := by
      show (startGame E.sha E.hmac seed now c.room).2 = _
      rw [heq]
    have hseed : (((step E c now (.startG seed)).1).room).serverSeed = seed := by
      show ((startGame E.sha E.hmac seed now c.room).1).serverSeed = seed
      rw [heq]
    rw [hev] at hstart
    have hinj := List.mem_singleton.mp hstart
    have hhsh : hsh = E.sha seed := (Event.gameStart.inj hinj).2.2.1
    obtain ⟨_, _, _, _, hcr⟩ := run_no_start_preserves E cmds
      (step E c now (.startG seed)).1 hns
    obtain ⟨_, hs⟩ := hcr cp s hcrash
    rw [hhsh, hs, hseed]

/-- Witness for C8 at a concrete round: the start step publishes commitment
"Hs1" for seed "s1"; the tick at elapsed 1 s crashes the round and disclosed
seed "s1" hashes back to "Hs1". -/
theorem c8_commitment_witness :
    extA.sha "s1" = "Hs1" :=
  c8_commitment extA confA 0 "s1" [(6050, .tickFire 1)] "T" 2 "Hs1" 6000
    (99/50) "s1"
    (by
      have hl : (step extA confA 0 (.startG "s1")).2 =
          [Event.gameStart "T" 2 "Hs1" 6000] := by with_unfolding_all rfl
      rw [hl]
      exact List.mem_singleton_self _)
    (by
      have hl : (run extA (step extA confA 0 (.startG "s1")).1
          [(6050, .tickFire 1)]).2 = [Event.crash (99/50) "s1"] := by
        with_unfolding_all rfl
      rw [hl]
      intro e he
      have h := List.mem_singleton.mp he
      subst h
      rfl)
    (by
      have hl : (run extA (step extA confA 0 (.startG "s1")).1
          [(6050, .tickFire 1)]).2 = [Event.crash (99/50) "s1"] := by
        with_unfolding_all rfl
      rw [hl]
      exact List.mem_singleton_self _)

/-! ### Claim C4 -/

/-- Claim C4: the crash point broadcast at crash time is exactly the
deterministic value of the spec's derivation applied to the disclosed seed
and the nonce published at round start: the keyed digest of
`"<serverSeed>:<nonce>"` under key `serverSeed` gives instant crash 1.00 if
its first 13 hex digits are divisible by 13, else
`max(1.00, floor(100 * 0.99 / (1 - h/2^32)) / 100)` with `h` its first 8 hex
digits.  (`E.hmac` stands for the external `CryptoJS.HmacSHA256`; JS numbers
are exact rationals here.) -/
theorem c4_crash_point_reproducible :
    ∀ (E : Ext) (c : Config) (now : ℤ) (seed : String)
      (cmds : List (ℤ × Cmd)) (tk : String) (n : ℕ) (hsh : String) (st : ℤ)
      (cp : ℚ) (s : String),
      Event.gameStart tk n hsh st ∈ (step E c now (.startG seed)).2 →
      (∀ e ∈ (run E (step E c now (.startG seed)).1 cmds).2, isStart e = false) →
      Event.crash cp s ∈ (run E (step E c now (.startG seed)).1 cmds).2 →
      cp = crashPointFromSpec (E.hmac (s ++ ":" ++ toString n) s) := by
  intro E c now seed cmds tk n hsh st cp s hstart hns hcrash
  by_cases hr : c.room.isRunning
  · exfalso
    have hempty : (step E c now (.startG seed)).2 = [] := by
      show (startGame E.sha E.hmac seed now c.room).2 = []
      unfold startGame
      rw [if_pos hr]
    rw [hempty] at hstart
    exact absurd hstart (by simp)
  · have heq := startGame_not_running E.sha E.hmac seed now c.room
      (Bool.eq_false_iff.mpr hr)
    have hev : (step E c now (.startG seed)).2 =
        [Event.gameStart c.room.ticker (c.room.nonce + 1) (E.sha seed)
          (now + 6000)] := by
      show (startGame E.sha E.hmac seed now c.room).2 = _
      rw [heq]
    have hseed : (((step E c now (.startG seed)).1).room).serverSeed = seed := by
      show ((startGame E.sha E.hmac seed now c.room).1).serverSeed = seed
      rw [heq]
    have hcp : (((step E c now (.startG seed)).1).room).crashPoint =
        getCrashPoint (E.hmac (seed ++ ":" ++ toString (c.room.nonce + 1)) seed) := by
      show ((startGame E.sha E.hmac seed now c.room).1).crashPoint = _
      rw [heq]
    rw [hev] at hstart
    have hinj := List.mem_singleton.mp hstart
    have hn : n = c.room.nonce + 1 := (Event.gameStart.inj hinj).2.1
    obtain ⟨_, _, _, _, hcr⟩ := run_no_start_preserves E cmds
      (step E c now (.startG seed)).1 hns
    obtain ⟨hcp2, hs⟩ := hcr cp s hcrash
    rw [hcp2, hcp, hs, hseed, hn, getCrashPoint_eq_spec]

/-- Witness for C4 at a concrete round: the broadcast crash point 1.98 is
reproduced by the spec derivation from the disclosed seed "s1" and the
published nonce 2 (every digest being "80000000" in this environment). -/
theorem c4_crash_point_reproducible_witness :
    (99/50 : ℚ) = crashPointFromSpec (extA.hmac ("s1" ++ ":" ++ toString 2) "s1") :=
  c4_crash_point_reproducible extA confA 0 "s1" [(6050, .tickFire 1)] "T" 2
    "Hs1" 6000 (99/50) "s1"
    (by
      have hl : (step extA confA 0 (.startG "s1")).2 =
          [Event.gameStart "T" 2 "Hs1" 6000] := by with_unfolding_all rfl
      rw [hl]
      exact List.mem_singleton_self _)
    (by
      have hl : (run extA (step extA confA 0 (.startG "s1")).1
          [(6050, .tickFire 1)]).2 = [Event.crash (99/50) "s1"] := by
        with_unfolding_all rfl
      rw [hl]
      intro e he
      have h := List.mem_singleton.mp he
      subst h
      rfl)
    (by
      have hl : (run extA (step extA confA 0 (.startG "s1")).1
          [(6050, .tickFire 1)]).2 = [Event.crash (99/50) "s1"] := by
        with_unfolding_all rfl
      rw [hl]
      exact List.mem_singleton_self _)

/-! ### Claim C7 -/

/-- Claim C7 (amended): at elapsed seconds `t` and volatility `λ`, the
sampled multiplier equals `max(1.00, round2(e^(k * t * 2.5)))` with
`k = 0.065 * (2.0 / λ)`, where `round2` ROUNDS TO THE NEAREST 2-decimal value
(JS `toFixed(2)`), not truncating; with that rounding, a higher λ still
yields a smaller-or-equal multiplier at every t ≥ 0. -/
theorem c7_growth_amended :
    (∀ (expE : ℚ → ℚ) (t : ℚ) (g : GameRoom),
        ((tick expE t g).1).multiplier =
          max 1 (toFixed2 (expE ((65 / 1000) * (2 / g.lambda) * t * (5 / 2))))) ∧
    (∀ lam1 lam2 t : ℝ, 0 < lam1 → lam1 ≤ lam2 → 0 ≤ t →
        multiplierFormula lam2 t ≤ multiplierFormula lam1 t) := by
  constructor
  · exact tick_multiplier_eq
  · intro lam1 lam2 t h1 h2 ht
    unfold multiplierFormula toFixed2R
    apply max_le_max le_rfl
    have hexp : Real.exp ((65 / 1000) * (2 / lam2) * t * (5 / 2)) ≤
        Real.exp ((65 / 1000) * (2 / lam1) * t * (5 / 2)) := by
      apply Real.exp_le_exp.mpr
      have hl2 : (0 : ℝ) < lam2 := lt_of_lt_of_le h1 h2
      gcongr
    have hfl : ⌊(100 : ℝ) * Real.exp ((65 / 1000) * (2 / lam2) * t * (5 / 2)) + 1 / 2⌋ ≤
        ⌊(100 : ℝ) * Real.exp ((65 / 1000) * (2 / lam1) * t * (5 / 2)) + 1 / 2⌋ :=
      Int.floor_le_floor (by linarith)
    rw [round_eq, round_eq]
    exact (div_le_div_iff_of_pos_right (by norm_num)).mpr (Int.cast_le.mpr hfl)

/-- Witness for C7 (amended): the tick formula at a concrete room and
constant exponential, and monotonicity at λ jumping from 1 to 2 with t = 1. -/
theorem c7_growth_amended_witness :
    ((tick (fun _ => (3 : ℚ)) 1
        ⟨"T", 1, "R", true, 1, 6000, 99/50, [], "s", "h", 2⟩).1).multiplier =
      max 1 (toFixed2 ((fun _ => (3 : ℚ))
        ((65 / 1000) * (2 / (1 : ℚ)) * 1 * (5 / 2)))) ∧
    multiplierFormula 2 1 ≤ multiplierFormula 1 1 :=
  ⟨c7_growth_amended.1 (fun _ => (3 : ℚ)) 1
      ⟨"T", 1, "R", true, 1, 6000, 99/50, [], "s", "h", 2⟩,
   c7_growth_amended.2 1 2 1 (by norm_num) (by norm_num) (by norm_num)⟩

/-- Claim C7 as stated is false: at λ = 1 and t = 0.05 s the exponent is
0.01625 and `e^0.01625 ≈ 1.01638`; the code's `toFixed(2)` rounds this to
1.02 while the claim's truncating `round2` gives 1.01, so the sampled
multiplier differs from the claimed formula. -/
theorem c7_round2_cex :
    multiplierFormula 1 (1/20) ≠ multiplierFormulaSpec 1 (1/20) := by
  have harg : ((65 : ℝ) / 1000) * (2 / 1) * (1/20) * (5 / 2) = 13/800 := by
    norm_num
  have hlo : (813/800 : ℝ) ≤ Real.exp (13/800) := by
    have h := Real.add_one_le_exp (13/800 : ℝ)
    linarith
  have hhi : Real.exp (13/800 : ℝ) ≤ 800/787 := by
    have h1 := Real.add_one_le_exp (-(13/800 : ℝ))
    rw [Real.exp_neg] at h1
    have hpos : (0 : ℝ) < Real.exp (13/800) := Real.exp_pos _
    have h2 : (787/800 : ℝ) ≤ (Real.exp (13/800))⁻¹ := by linarith
    have h3 : Real.exp (13/800) * (787/800) ≤
        Real.exp (13/800) * (Real.exp (13/800))⁻¹ :=
      mul_le_mul_of_nonneg_left h2 (le_of_lt hpos)
    rw [mul_inv_cancel₀ (ne_of_gt hpos)] at h3
    linarith
  have hround : round ((100 : ℝ) * Real.exp (13/800)) = 102 := by
    rw [round_eq]
    apply Int.floor_eq_iff.mpr
    constructor
    · push_cast
      linarith
    · push_cast
      linarith
  have hfloor : ⌊(100 : ℝ) * Real.exp (13/800)⌋ = (101 : ℤ) := by
    apply Int.floor_eq_iff.mpr
    constructor
    · push_cast
      linarith
    · push_cast
      linarith
  have hA : multiplierFormula 1 (1/20) = 102/100 := by
    unfold multiplierFormula toFixed2R
    rw [harg, hround]
    rw [max_eq_right (by norm_num : (1 : ℝ) ≤ ((102 : ℤ) : ℝ) / 100)]
    norm_num
  have hB : multiplierFormulaSpec 1 (1/20) = 101/100 := by
    unfold multiplierFormulaSpec trunc2R
    rw [harg, hfloor]
    rw [max_eq_right (by norm_num : (1 : ℝ) ≤ ((101 : ℤ) : ℝ) / 100)]
    norm_num
  rw [hA, hB]
  norm_num

end CrashStreet
